import Mathlib

/-
Formal model of the real-time transport subsystem of agent-sdk-core:
the JSON value domain and sanitizer, the WebSocket server helpers
(broadcast, admission gate, connection limit, heartbeat) and the
reconnecting WSClient state machine, together with theorems settling the
specified properties.

Numbers in JSON payloads are modelled as integers; none of the verified
properties depends on non-integral numeric payloads.  String lengths are
measured in characters, which agrees with JavaScript string length on all
payloads considered here.
-/

/-- The JSON value domain.  Objects keep their fields as an ordered
association list, exactly as a parsed JavaScript object enumerates its own
keys; a parse result never has duplicate own keys. -/
inductive Json where
  | null : Json
  | bool (b : Bool) : Json
  | num (n : Int) : Json
  | str (s : String) : Json
  | arr (elems : List Json) : Json
  | obj (fields : List (String × Json)) : Json

/-- The three property names that enable prototype pollution, as listed in
the server message path and in the spec. -/
def dangerousKeys : List String := ["__proto__", "constructor", "prototype"]

mutual

/-- Modelled from the spec: the implementation of `sanitizeJson` lives in
`src/ws/sanitize.ts`, which is absent from the provided sources (only the
server file's use and call site of it are present).  Spec contract
(section 4.1): return a value with identical structure except that at every
nesting level (objects and arrays, recursively) any object key literally
equal to "__proto__", "constructor" or "prototype" is omitted; all other
keys and values are preserved unchanged; the input is not mutated (the
embedding is a pure function, so non-mutation is inherent). -/
def sanitizeJson : Json → Json
  | .null => .null
  | .bool b => .bool b
  | .num n => .num n
  | .str s => .str s
  | .arr elems => .arr (sanitizeArr elems)
  | .obj fields => .obj (sanitizeFields fields)

/-- Sanitize every element of an array. -/
def sanitizeArr : List Json → List Json
  | [] => []
  | v :: vs => sanitizeJson v :: sanitizeArr vs

/-- Sanitize an object's field list: drop fields with a dangerous key,
sanitize the values of the remaining fields. -/
def sanitizeFields : List (String × Json) → List (String × Json)
  | [] => []
  | (k, v) :: kvs =>
      if dangerousKeys.contains k then sanitizeFields kvs
      else (k, sanitizeJson v) :: sanitizeFields kvs

end

mutual

/-- Whether a JSON value contains a dangerous object key at any nesting
level. -/
def hasDangerousKey : Json → Bool
  | .arr elems => hasDangerousKeyArr elems
  | .obj fields => hasDangerousKeyFields fields
  | _ => false

/-- Whether any element of an array contains a dangerous key. -/
def hasDangerousKeyArr : List Json → Bool
  | [] => false
  | v :: vs => hasDangerousKey v || hasDangerousKeyArr vs

/-- Whether a field list has a dangerous key, at the top or inside a
value. -/
def hasDangerousKeyFields : List (String × Json) → Bool
  | [] => false
  | (k, v) :: kvs =>
      dangerousKeys.contains k || hasDangerousKey v || hasDangerousKeyFields kvs

end

/-- Lower-case hexadecimal digit, as produced by JSON.stringify unicode
escapes. -/
def hexDigit (n : Nat) : Char :=
  if n < 10 then Char.ofNat (48 + n) else Char.ofNat (87 + n)

/-- Escape one character the way JSON.stringify escapes characters inside a
string literal. -/
def escapeChar (c : Char) : String :=
  if c = '"' then "\\\""
  else if c = '\\' then "\\\\"
  else if c = '\n' then "\\n"
  else if c = '\r' then "\\r"
  else if c = '\t' then "\\t"
  else if c = '\x08' then "\\b"
  else if c = '\x0c' then "\\f"
  else if c.toNat < 32 then
    "\\u00" ++ String.singleton (hexDigit (c.toNat / 16))
            ++ String.singleton (hexDigit (c.toNat % 16))
  else String.singleton c

/-- Escape a list of characters for a JSON string literal. -/
def escapeList : List Char → String
  | [] => ""
  | c :: cs => escapeChar c ++ escapeList cs

/-- Escape the characters of a string for a JSON string literal. -/
def escapeString (s : String) : String := escapeList s.data

/-- A JSON string literal: quotes around the escaped body. -/
def quoteString (s : String) : String := "\"" ++ escapeString s ++ "\""

mutual

/-- JSON.stringify over the modelled JSON domain. -/
def stringify : Json → String
  | .null => "null"
  | .bool true => "true"
  | .bool false => "false"
  | .num n => toString n
  | .str s => quoteString s
  | .arr elems => "[" ++ stringifyArr elems ++ "]"
  | .obj fields => "\x7b" ++ stringifyFields fields ++ "\x7d"

/-- Comma-separated serialization of array elements. -/
def stringifyArr : List Json → String
  | [] => ""
  | [v] => stringify v
  | v :: vs => stringify v ++ "," ++ stringifyArr vs

/-- Comma-separated serialization of object fields. -/
def stringifyFields : List (String × Json) → String
  | [] => ""
  | [(k, v)] => quoteString k ++ ":" ++ stringify v
  | (k, v) :: kvs => quoteString k ++ ":" ++ stringify v ++ "," ++ stringifyFields kvs

end

/-- WebSocket readiness states (CONNECTING / OPEN / CLOSING / CLOSED). -/
inductive ReadyState where
  | connecting
  | opened
  | closing
  | closed
deriving DecidableEq, Repr

/-- Maximum broadcast message size (1MB), `MAX_BROADCAST_SIZE` in the
server file. -/
def MAX_BROADCAST_SIZE : Nat := 1 * 1024 * 1024

/-- Result of one `broadcast` call: whether the oversize warning was
logged, and the `(client index, data)` transmissions performed, in
iteration order over the connection set. -/
structure BroadcastOut where
  warned : Bool
  sends : List (Nat × String)
deriving DecidableEq, Repr

/-- The server's `broadcast(wss, message)`: serialize the envelope once;
if the serialized length exceeds `MAX_BROADCAST_SIZE`, log a warning and
send to nobody; otherwise send the identical string to every tracked
connection whose ready state is OPEN, skipping all others.  The connection
set is modelled as the list of the tracked connections' ready states. -/
def broadcast (clients : List ReadyState) (message : Json) : BroadcastOut :=
  let data := stringify message
  if data.length > MAX_BROADCAST_SIZE then
    { warned := true, sends := [] }
  else
    { warned := false
      sends := clients.enum.filterMap fun c =>
        if c.2 = ReadyState.opened then some (c.1, data) else none }

/-- The origin phase of the `verifyClient` closure installed by
`createWSServer`: reject only when an allowlist is present, non-empty and
does not contain the request origin. -/
def originPhase (allowedOrigins : Option (List String)) (origin : String) : Bool :=
  match allowedOrigins with
  | some l => if 0 < l.length then l.contains origin else true
  | none => true

/-- The admission decision of `createWSServer`: when neither an origin
allowlist nor a custom verifier is configured no `verifyClient` closure is
installed and every handshake passes; otherwise the installed closure
first applies the origin phase and then the custom verifier.  `α` stands
for the raw HTTP request type. -/
def admissionAllowed {α : Type} (allowedOrigins : Option (List String))
    (verify : Option (α → Bool)) (origin : String) (req : α) : Bool :=
  match allowedOrigins, verify with
  | none, none => true
  | _, _ =>
      originPhase allowedOrigins origin &&
        (match verify with
         | some f => f req
         | none => true)

/-- The post-upgrade connection-limit check of `createWSServer`, run when a
new connection is registered.  `openCount` is the number of connections
tracked before the new one was added, so the set size seen by the check is
`openCount + 1`.  Returns the number of connections that remain open and
the close code used on the new connection, if any. -/
def registerConn (maxConnections : Nat) (openCount : Nat) : Nat × Option Nat :=
  let size := openCount + 1
  if 0 < maxConnections ∧ maxConnections < size then (openCount, some 1013)
  else (size, none)

/-- Per-connection heartbeat state: the liveness flag and whether the
connection has been forcibly terminated (a terminated connection leaves
the tracked set). -/
structure HConn where
  alive : Bool
  terminated : Bool
deriving DecidableEq, Repr

/-- Heartbeat state of a freshly registered connection: `isAlive = true`. -/
def freshConn : HConn := { alive := true, terminated := false }

/-- One heartbeat tick applied to one tracked connection: a dead flag
means terminate; otherwise clear the flag and send a ping (the returned
Bool).  A terminated connection is no longer probed. -/
def tickConn (c : HConn) : HConn × Bool :=
  if c.terminated then (c, false)
  else if c.alive = false then ({ c with terminated := true }, false)
  else ({ c with alive := false }, true)

/-- A pong response sets the liveness flag back to true. -/
def pongConn (c : HConn) : HConn :=
  if c.terminated then c else { c with alive := true }

/-- State of the heartbeat created by `createHeartbeat`: the tracked
connections and whether the probing interval is still active (the cleanup
function clears it). -/
structure Heartbeat where
  conns : List HConn
  active : Bool
deriving DecidableEq, Repr

/-- One firing of the heartbeat interval: probes every tracked connection;
returns the new state and the number of pings sent.  A cleaned-up
heartbeat does nothing. -/
def hbTick (s : Heartbeat) : Heartbeat × Nat :=
  if s.active then
    ({ s with conns := s.conns.map fun c => (tickConn c).1 },
     (s.conns.filter fun c => (tickConn c).2).length)
  else (s, 0)

/-- The cleanup function returned by `createHeartbeat`: clears the
interval, halting all further probing. -/
def hbCleanup (s : Heartbeat) : Heartbeat := { s with active := false }

/-- Client configuration (`WSClientOptions` defaults: 10 attempts, queue
of 10).  The url and the backoff ceiling play no role in the untimed step
semantics; the backoff delay computation is modelled separately. -/
structure WSCfg where
  maxAttempts : Nat := 10
  maxQueueSize : Nat := 10

/-- State of one `WSClient` instance.  `sockets` records the ready state
of every socket the client has ever constructed, in creation order;
`wsIdx` is the index held by the `ws` field (`none` = null).  `timers`
counts scheduled reconnect timeouts that have neither fired nor been
cancelled, and `timerRef` tells whether the `reconnectTimer` field
currently holds a handle (reassigning the field does not cancel the
previous timeout).  `transmitted` records every string passed to
`ws.send` on the open current socket, in order; `delivered` records every
message handed to a subscriber (one entry per listener notified). -/
structure WSState where
  sockets : List ReadyState
  wsIdx : Option Nat
  listeners : Nat
  queue : List String
  attempts : Nat
  disposed : Bool
  timers : Nat
  timerRef : Bool
  transmitted : List String
  delivered : List Json

/-- A freshly constructed client: inert, no socket, empty queue. -/
def WSState.init : WSState :=
  { sockets := [], wsIdx := none, listeners := 0, queue := [], attempts := 0,
    disposed := false, timers := 0, timerRef := false, transmitted := [],
    delivered := [] }

/-- Ready state of the socket currently held in the `ws` field. -/
def currentReady (s : WSState) : Option ReadyState :=
  s.wsIdx.bind fun i => s.sockets[i]?

/-- The private `connect()`: bail out if disposed, otherwise construct a
new socket (CONNECTING) and store it in the `ws` field.  Note that it does
not cancel a pending reconnect timer. -/
def connect (s : WSState) : WSState :=
  if s.disposed then s
  else { s with sockets := s.sockets ++ [ReadyState.connecting],
                wsIdx := some s.sockets.length }

/-- The private `ensureConnection()`: keep the current socket when it is
OPEN or CONNECTING, otherwise call `connect()`. -/
def ensureConnection (s : WSState) : WSState :=
  match currentReady s with
  | some ReadyState.opened => s
  | some ReadyState.connecting => s
  | _ => connect s

/-- `subscribe(handler)`: add the handler to the listener set and ensure a
connection. -/
def subscribeOp (s : WSState) : WSState :=
  ensureConnection { s with listeners := s.listeners + 1 }

/-- `dispose()`: mark disposed, cancel the referenced reconnect timer if
any, close the current socket, null the `ws` field and clear the queue.
`ws.close()` is modelled as an immediate transition to CLOSED; the
deferred close event of a socket closed here never schedules a reconnect
because `disposed` is already set when it would fire. -/
def disposeOp (s : WSState) : WSState :=
  let s1 := { s with disposed := true }
  let s2 := if s1.timerRef then { s1 with timers := s1.timers - 1, timerRef := false }
            else s1
  let s3 := match s2.wsIdx with
            | some i => { s2 with sockets := s2.sockets.set i ReadyState.closed }
            | none => s2
  { s3 with wsIdx := none, queue := [] }

/-- The unsubscribe closure returned by `subscribe`: remove the handler;
when the listener set becomes empty, dispose. -/
def unsubscribeOp (s : WSState) : WSState :=
  let s1 := { s with listeners := s.listeners - 1 }
  if s1.listeners = 0 then disposeOp s1 else s1

/-- The queueing branch of `send`: `if (queue.length >= maxQueueSize)
queue.shift(); queue.push(data)`. -/
def evictPush (maxQ : Nat) (q : List String) (data : String) : List String :=
  (if maxQ ≤ q.length then q.drop 1 else q) ++ [data]

/-- `send(message)`: serialize; transmit immediately when the current
socket is OPEN, otherwise enqueue with drop-oldest eviction. -/
def sendOp (cfg : WSCfg) (s : WSState) (msg : Json) : WSState :=
  let data := stringify msg
  if currentReady s = some ReadyState.opened then
    { s with transmitted := s.transmitted ++ [data] }
  else
    { s with queue := evictPush cfg.maxQueueSize s.queue data }

/-- The private `flushQueue()`: while the current socket is OPEN, send the
queued strings in FIFO order.  Transmitting cannot close the socket within
the same turn, so an open socket drains the whole queue. -/
def flushQueue (s : WSState) : WSState :=
  if currentReady s = some ReadyState.opened then
    { s with transmitted := s.transmitted ++ s.queue, queue := [] }
  else s

/-- The private `scheduleReconnect()`: give up when the attempt ceiling is
reached; otherwise increment `attempts` and schedule one more timeout,
overwriting the `reconnectTimer` field (which does not cancel a timeout
already scheduled there). -/
def scheduleReconnect (cfg : WSCfg) (s : WSState) : WSState :=
  if 0 < cfg.maxAttempts ∧ cfg.maxAttempts ≤ s.attempts then s
  else { s with attempts := s.attempts + 1, timers := s.timers + 1, timerRef := true }

/-- The socket `onopen` handler, firing on socket `i` (which must be
CONNECTING): the socket becomes OPEN, the attempt counter resets to 0 and
the queue is flushed.  The handler closes over the client, so it runs even
when `i` is no longer the current socket; `flushQueue` inspects the
current socket. -/
def sockOpenEv (s : WSState) (i : Nat) : WSState :=
  if s.sockets[i]? = some ReadyState.connecting then
    flushQueue { s with sockets := s.sockets.set i ReadyState.opened, attempts := 0 }
  else s

/-- The socket `onclose` handler, firing on a live socket `i`: the socket
becomes CLOSED and, when the client is not disposed and still has
listeners, a reconnect is scheduled. -/
def sockCloseEv (cfg : WSCfg) (s : WSState) (i : Nat) : WSState :=
  if s.sockets[i]? = some ReadyState.connecting ∨
     s.sockets[i]? = some ReadyState.opened then
    let s1 := { s with sockets := s.sockets.set i ReadyState.closed }
    if ¬s1.disposed ∧ 0 < s1.listeners then scheduleReconnect cfg s1 else s1
  else s

/-- A scheduled reconnect timeout fires: the handler nulls the
`reconnectTimer` field and calls `connect()`. -/
def timerFireEv (s : WSState) : WSState :=
  if 0 < s.timers then
    connect { s with timers := s.timers - 1, timerRef := false }
  else s

/-- Own properties of `Object.prototype`, consulted by the JavaScript `in`
operator on any plain object produced by `JSON.parse`. -/
def objectProtoKeys : List String :=
  ["constructor", "hasOwnProperty", "isPrototypeOf", "propertyIsEnumerable",
   "toLocaleString", "toString", "valueOf", "__proto__", "__defineGetter__",
   "__defineSetter__", "__lookupGetter__", "__lookupSetter__"]

/-- The JavaScript expression `k in raw` for a plain JSON-parsed object
with the given own keys: true when `k` is an own key or a property of
`Object.prototype` (the `in` operator walks the prototype chain). -/
def jsHasProperty (k : String) (ownKeys : List String) : Bool :=
  ownKeys.contains k || objectProtoKeys.contains k

/-- The guard of the client `onmessage` handler applied to a successfully
parsed value: deliver only a non-null object whose `type` property is a
string and for which none of `'__proto__' in raw`, `'constructor' in raw`,
`'prototype' in raw` holds. -/
def deliverable (v : Json) : Bool :=
  match v with
  | .obj fields =>
      (match fields.lookup "type" with
       | some (.str _) => true
       | _ => false)
      && !(jsHasProperty "__proto__" (fields.map Prod.fst) ||
           jsHasProperty "constructor" (fields.map Prod.fst) ||
           jsHasProperty "prototype" (fields.map Prod.fst))
  | _ => false

/-- The socket `onmessage` handler, firing on an OPEN socket `i` with the
result of `JSON.parse` on the frame (`none` when parsing threw, which the
handler swallows).  A deliverable value is handed to every listener. -/
def messageEv (s : WSState) (i : Nat) (parsed : Option Json) : WSState :=
  if s.sockets[i]? = some ReadyState.opened then
    match parsed with
    | some v =>
        if deliverable v then
          { s with delivered := s.delivered ++ List.replicate s.listeners v }
        else s
    | none => s
  else s

/-- Events of one client instance: API calls, socket callbacks and timer
firings, interleaved on one event loop. -/
inductive WSEv where
  | subscribe
  | unsubscribe
  | send (msg : Json)
  | dispose
  | sockOpen (i : Nat)
  | sockClose (i : Nat)
  | timerFire
  | message (i : Nat) (parsed : Option Json)

/-- One event-loop turn of a client. -/
def stepEv (cfg : WSCfg) (s : WSState) : WSEv → WSState
  | WSEv.subscribe => subscribeOp s
  | WSEv.unsubscribe => unsubscribeOp s
  | WSEv.send msg => sendOp cfg s msg
  | WSEv.dispose => disposeOp s
  | WSEv.sockOpen i => sockOpenEv s i
  | WSEv.sockClose i => sockCloseEv cfg s i
  | WSEv.timerFire => timerFireEv s
  | WSEv.message i parsed => messageEv s i parsed

/-- Run a sequence of event-loop turns. -/
def runEvents (cfg : WSCfg) : List WSEv → WSState → WSState
  | [], s => s
  | e :: es, s => runEvents cfg es (stepEv cfg s e)

/-- Number of live (connecting-or-open) sockets the client has
constructed and not closed. -/
def liveCount (s : WSState) : Nat :=
  (s.sockets.filter fun st =>
    st = ReadyState.connecting ∨ st = ReadyState.opened).length

/-- The deterministic part of the backoff computation:
`base = min(1000 * 2^attempts, maxBackoffMs)`. -/
def backoffBase (attempts : Nat) (maxBackoffMs : ℚ) : ℚ :=
  min (1000 * 2 ^ attempts) maxBackoffMs

/-- The jittered delay before clamping: `base * (0.7 + random * 0.6)`
where `r` is the draw of `Math.random()`. -/
def backoffJitter (base r : ℚ) : ℚ := base * (7 / 10 + r * (6 / 10))

/-- The scheduled delay: the jittered value clamped once more to
`maxBackoffMs`. -/
def backoffDelay (attempts : Nat) (maxBackoffMs r : ℚ) : ℚ :=
  min (backoffJitter (backoffBase attempts maxBackoffMs) r) maxBackoffMs

/-- C7: with `maxConnections = m > 0`, a newly registered connection whose
post-accept count exceeds `m` is closed with code 1013 and does not remain
open; with at most `m` connections the newcomer is accepted, so at most
`m` stay open; with `maxConnections = 0` no ceiling is enforced. -/
theorem connLimit_spec : ∀ m c : Nat,
    (0 < m → m < c + 1 → registerConn m c = (c, some 1013))
    ∧ (0 < m → c + 1 ≤ m → registerConn m c = (c + 1, none))
    ∧ (m = 0 → registerConn m c = (c + 1, none))
    ∧ (0 < m → c ≤ m → (registerConn m c).1 ≤ m) := by
  intro m c
  refine ⟨?_, ?_, ?_, ?_⟩ <;> intros <;> simp only [registerConn] <;>
    (split <;> simp_all <;> omega)

/-- Witness for C7: with a ceiling of 2, a third simultaneous connection is
closed with code 1013 and the open count stays at 2; a second one is
accepted; with ceiling 0 anything is accepted. -/
theorem connLimit_spec_witness :
    registerConn 2 2 = (2, some 1013)
    ∧ registerConn 2 1 = (2, none)
    ∧ registerConn 0 5 = (6, none) :=
  ⟨(connLimit_spec 2 2).1 (by norm_num) (by norm_num),
   (connLimit_spec 2 1).2.1 (by norm_num) (by norm_num),
   (connLimit_spec 0 5).2.2.1 rfl⟩

/-- C9: on a heartbeat tick a tracked connection with a cleared liveness
flag is terminated (no ping), otherwise its flag is cleared and a ping is
sent; a pong restores the flag; a connection that answers no probe is
terminated within two ticks; a fresh connection starts alive; cleanup
halts all further probing. -/
theorem heartbeat_spec :
    (∀ c : HConn, c.terminated = false →
        (c.alive = false → (tickConn c).1.terminated = true ∧ (tickConn c).2 = false)
        ∧ (c.alive = true →
            (tickConn c).1 = { alive := false, terminated := false }
            ∧ (tickConn c).2 = true))
    ∧ (∀ c : HConn, c.terminated = false → (pongConn c).alive = true)
    ∧ (∀ c : HConn, c.terminated = false →
        ((tickConn (tickConn c).1).1).terminated = true)
    ∧ (∀ s : Heartbeat, hbTick (hbCleanup s) = (hbCleanup s, 0))
    ∧ freshConn.alive = true := by
  refine ⟨?_, ?_, ?_, ?_, rfl⟩
  · rintro ⟨a, t⟩ ht
    subst ht
    cases a <;> simp [tickConn]
  · rintro ⟨a, t⟩ ht
    subst ht
    simp [pongConn]
  · rintro ⟨a, t⟩ ht
    subst ht
    cases a <;> simp [tickConn]
  · intro s
    simp [hbTick, hbCleanup]

/-- Witness for C9: a connection that is alive gets probed on the first
tick and, never answering, is terminated by the second. -/
theorem heartbeat_spec_witness :
    (tickConn freshConn).2 = true
    ∧ ((tickConn (tickConn freshConn).1).1).terminated = true :=
  ⟨((heartbeat_spec.1 freshConn rfl).2 rfl).2,
   heartbeat_spec.2.2.1 freshConn rfl⟩

/-- C6 counterexample: an empty allowlist is a configured allowlist of
which no origin is a member, yet the server accepts the handshake (the
installed closure only rejects when the list is non-empty), contradicting
the claim that every non-member origin is rejected. -/
theorem admission_empty_allowlist_accepts :
    ¬ (admissionAllowed (some []) (none : Option (Unit → Bool)) "http://evil" () = false) := by
  decide

/-- C6 amended: with a configured non-empty allowlist, a handshake whose
origin is not a member is rejected before the upgrade; one whose origin is
a member passes the origin check (and is admitted exactly when the custom
verifier, if any, accepts); with the allowlist unset the decision is the
verifier's alone, so any origin is accepted absent a failing verifier. -/
theorem admission_spec {α : Type} :
    ∀ (l : List String) (verify : Option (α → Bool)) (origin : String) (req : α),
    (l ≠ [] → origin ∉ l → admissionAllowed (some l) verify origin req = false)
    ∧ (origin ∈ l → originPhase (some l) origin = true)
    ∧ (origin ∈ l → admissionAllowed (some l) verify origin req
          = (match verify with
             | some f => f req
             | none => true))
    ∧ (admissionAllowed (none : Option (List String)) verify origin req
          = (match verify with
             | some f => f req
             | none => true)) := by
  intro l verify origin req
  refine ⟨?_, ?_, ?_, ?_⟩
  · intro hne hmem
    have hlen : 0 < l.length := List.length_pos.2 hne
    cases verify <;> simp [admissionAllowed, originPhase, hlen, hmem]
  · intro hmem
    simp [originPhase, hmem]
  · intro hmem
    cases verify <;> simp [admissionAllowed, originPhase, hmem]
  · cases verify <;> simp [admissionAllowed, originPhase]

/-- Witness for C6 amended: with allowlist `["http://a"]` and no custom
verifier, origin `http://evil` is rejected and origin `http://a` is
admitted. -/
theorem admission_spec_witness :
    admissionAllowed (some ["http://a"]) (none : Option (Unit → Bool)) "http://evil" () = false
    ∧ admissionAllowed (some ["http://a"]) (none : Option (Unit → Bool)) "http://a" () = true := by
  refine ⟨(admission_spec ["http://a"] none "http://evil" ()).1 (by simp) (by simp), ?_⟩
  have h := (admission_spec ["http://a"] (none : Option (Unit → Bool)) "http://a" ()).2.2.1
    (by simp)
  simpa using h

/-- `connect` never changes the attempt counter. -/
theorem connect_attempts (s : WSState) : (connect s).attempts = s.attempts := by
  unfold connect
  split <;> rfl

/-- `ensureConnection` never changes the attempt counter. -/
theorem ensureConnection_attempts (s : WSState) :
    (ensureConnection s).attempts = s.attempts := by
  unfold ensureConnection
  split
  · rfl
  · rfl
  · exact connect_attempts s

/-- `dispose` never changes the attempt counter. -/
theorem disposeOp_attempts (s : WSState) : (disposeOp s).attempts = s.attempts := by
  simp only [disposeOp]
  split <;> split <;> rfl

/-- `flushQueue` never changes the attempt counter. -/
theorem flushQueue_attempts (s : WSState) : (flushQueue s).attempts = s.attempts := by
  unfold flushQueue
  split <;> rfl

/-- C5: the computed reconnect delay is the base `min(1000·2^attempts,
maxBackoffMs)` scaled by a jitter factor in `[0.7, 1.3]` and, after the
final clamp, never exceeds `maxBackoffMs`; `scheduleReconnect` increments
the attempt counter exactly once whenever it schedules a retry (and leaves
the state untouched at the ceiling); across every event-loop turn the
counter is only ever kept, incremented by one, or reset to zero, and a
reset can only be caused by a socket open event. -/
theorem backoff_spec :
    (∀ (n : Nat) (maxB r : ℚ), 0 ≤ r → r < 1 →
       ∃ f : ℚ, 7 / 10 ≤ f ∧ f ≤ 13 / 10
         ∧ backoffJitter (backoffBase n maxB) r = backoffBase n maxB * f
         ∧ backoffDelay n maxB r ≤ maxB)
    ∧ (∀ (cfg : WSCfg) (s : WSState),
        (¬(0 < cfg.maxAttempts ∧ cfg.maxAttempts ≤ s.attempts) →
           (scheduleReconnect cfg s).attempts = s.attempts + 1
           ∧ (scheduleReconnect cfg s).timers = s.timers + 1)
        ∧ ((0 < cfg.maxAttempts ∧ cfg.maxAttempts ≤ s.attempts) →
           scheduleReconnect cfg s = s))
    ∧ (∀ (cfg : WSCfg) (s : WSState) (e : WSEv),
        (stepEv cfg s e).attempts = s.attempts
        ∨ (stepEv cfg s e).attempts = s.attempts + 1
        ∨ ((stepEv cfg s e).attempts = 0 ∧ ∃ i, e = WSEv.sockOpen i)) := by
  refine ⟨?_, ?_, ?_⟩
  · intro n maxB r hr0 hr1
    refine ⟨7 / 10 + r * (6 / 10), ?_, ?_, rfl, min_le_right _ _⟩
    · nlinarith
    · nlinarith
  · intro cfg s
    constructor
    · intro h
      simp [scheduleReconnect, h]
    · intro h
      simp [scheduleReconnect, h]
  · intro cfg s e
    cases e with
    | subscribe =>
        left
        have h := ensureConnection_attempts { s with listeners := s.listeners + 1 }
        simpa [stepEv, subscribeOp] using h
    | unsubscribe =>
        left
        simp only [stepEv, unsubscribeOp]
        split
        · rw [disposeOp_attempts]
        · rfl
    | send msg =>
        left
        simp only [stepEv, sendOp]
        split <;> rfl
    | dispose =>
        left
        exact disposeOp_attempts s
    | sockOpen i =>
        simp only [stepEv, sockOpenEv]
        split
        · right; right
          refine ⟨?_, i, rfl⟩
          rw [flushQueue_attempts]
        · left; rfl
    | sockClose i =>
        simp only [stepEv, sockCloseEv]
        split
        · split
          · simp only [scheduleReconnect]
            split
            · left; rfl
            · right; left; rfl
          · left; rfl
        · left; rfl
    | timerFire =>
        left
        simp only [stepEv, timerFireEv]
        split
        · rw [connect_attempts]
        · rfl
    | message i parsed =>
        left
        simp only [stepEv, messageEv]
        split
        · cases parsed
          · rfl
          · dsimp only
            split <;> rfl
        · rfl

/-- Witness for C5: at attempt 3 with a 30000 ms ceiling and a random draw
of one half, the jittered delay is the base times a factor inside
`[0.7, 1.3]` and the clamped delay stays at or below the ceiling. -/
theorem backoff_spec_witness :
    ∃ f : ℚ, 7 / 10 ≤ f ∧ f ≤ 13 / 10
      ∧ backoffJitter (backoffBase 3 30000) (1 / 2) = backoffBase 3 30000 * f
      ∧ backoffDelay 3 30000 (1 / 2) ≤ 30000 :=
  backoff_spec.1 3 30000 (1 / 2) (by norm_num) (by norm_num)

/-- C1 refuted (code bug): the guard in the client `onmessage` handler
tests `'__proto__' in raw || 'constructor' in raw || 'prototype' in raw`,
and the JavaScript `in` operator consults the prototype chain, on which
`Object.prototype` always provides `constructor` and `__proto__`; so the
guard discards every parsed object and no subscriber ever receives any
message.  Concretely, after a subscribe and a successful open, the
well-formed frame `{"type":"test","payload":1}` leaves the delivered list
empty even though one handler is registered. -/
theorem client_message_never_delivered :
    (∀ v : Json, deliverable v = false)
    ∧ (runEvents {} [WSEv.subscribe, WSEv.sockOpen 0,
         WSEv.message 0 (some (Json.obj [("type", Json.str "test"), ("payload", Json.num 1)]))]
         WSState.init).listeners = 1
    ∧ (runEvents {} [WSEv.subscribe, WSEv.sockOpen 0,
         WSEv.message 0 (some (Json.obj [("type", Json.str "test"), ("payload", Json.num 1)]))]
         WSState.init).delivered.length = 0 := by
  refine ⟨?_, by decide, by decide⟩
  intro v
  cases v with
  | null => rfl
  | bool b => rfl
  | num n => rfl
  | str s => rfl
  | arr elems => rfl
  | obj fields =>
      have hC : jsHasProperty "constructor" (fields.map Prod.fst) = true := by
        simp only [jsHasProperty, Bool.or_eq_true]
        right
        decide
      simp only [deliverable, hC, Bool.or_true, Bool.true_or, Bool.not_true, Bool.and_false]

/-- C2 refuted (code bug): `connect()` does not cancel a pending reconnect
timer and `ensureConnection()` ignores it, while a second `onclose` simply
overwrites the `reconnectTimer` field without clearing the previous
timeout.  After subscribe, a socket close, a second subscribe and the
timer firing, the client has created two sockets that are both still
connecting; and after two socket closes two reconnect timeouts are pending
simultaneously. -/
theorem client_two_live_sockets :
    liveCount (runEvents {} [WSEv.subscribe, WSEv.sockClose 0,
        WSEv.subscribe, WSEv.timerFire] WSState.init) = 2
    ∧ (runEvents {} [WSEv.subscribe, WSEv.sockClose 0,
        WSEv.subscribe, WSEv.timerFire] WSState.init).disposed = false
    ∧ (runEvents {} [WSEv.subscribe, WSEv.sockClose 0,
        WSEv.subscribe, WSEv.sockClose 1] WSState.init).timers = 2 := by
  refine ⟨by decide, by decide, by decide⟩

/-- C3 counterexample: with `maxQueueSize = 0` a single offline `send`
still enqueues after evicting from the empty queue, so the queue length
reaches 1 and exceeds the configured maximum. -/
theorem send_queue_overflow_at_zero :
    ¬ ((sendOp { maxQueueSize := 0 } WSState.init (Json.str "a")).queue.length ≤ 0) := by
  decide

/-- C3 amended: `send` serializes and transmits immediately when the
current socket is OPEN; otherwise it appends to the tail of the offline
queue, evicting the oldest entry when the queue is at the configured
maximum, so the queue length never exceeds `max(maxQueueSize, 1)` (for a
zero maximum one message is still enqueued) and `send` is total in every
state; a successful open flushes the queue in strict FIFO order; with
`maxQueueSize = 3` and four sends while disconnected, exactly the last
three serialized messages are transmitted on open, in original order. -/
theorem send_queue_spec : ∀ (cfg : WSCfg) (s : WSState) (msg : Json),
    (s.queue.length ≤ max cfg.maxQueueSize 1 →
       (sendOp cfg s msg).queue.length ≤ max cfg.maxQueueSize 1)
    ∧ (currentReady s = some ReadyState.opened →
       sendOp cfg s msg = { s with transmitted := s.transmitted ++ [stringify msg] })
    ∧ (¬ currentReady s = some ReadyState.opened →
       s.queue.length < cfg.maxQueueSize →
       (sendOp cfg s msg).queue = s.queue ++ [stringify msg])
    ∧ (¬ currentReady s = some ReadyState.opened →
       cfg.maxQueueSize ≤ s.queue.length →
       (sendOp cfg s msg).queue = s.queue.drop 1 ++ [stringify msg])
    ∧ (∀ i : Nat, s.wsIdx = some i → s.sockets[i]? = some ReadyState.connecting →
       (sockOpenEv s i).transmitted = s.transmitted ++ s.queue
       ∧ (sockOpenEv s i).queue = [])
    ∧ (runEvents { maxQueueSize := 3 }
        [WSEv.send (Json.str "m1"), WSEv.send (Json.str "m2"), WSEv.send (Json.str "m3"),
         WSEv.send (Json.str "m4"), WSEv.subscribe, WSEv.sockOpen 0]
        WSState.init).transmitted
      = [stringify (Json.str "m2"), stringify (Json.str "m3"), stringify (Json.str "m4")] := by
  intro cfg s msg
  refine ⟨?_, ?_, ?_, ?_, ?_, by decide⟩
  · intro hlen
    simp only [sendOp]
    split
    · simpa using hlen
    · simp only [evictPush]
      split <;> simp [List.length_append] <;> omega
  · intro hopen
    simp [sendOp, hopen]
  · intro hnot hlt
    simp only [sendOp, if_neg hnot, evictPush]
    rw [if_neg (by omega)]
  · intro hnot hge
    simp only [sendOp, if_neg hnot, evictPush]
    rw [if_pos hge]
  · intro i hidx hconn
    have hilt : i < s.sockets.length := (List.getElem?_eq_some.1 hconn).1
    have hcur : currentReady { s with sockets := s.sockets.set i ReadyState.opened, attempts := 0 } = some ReadyState.opened := by
      simp [currentReady, hidx, List.getElem?_set_self hilt]
    simp [sockOpenEv, hconn, flushQueue, hcur]

/-- Witness for C3 amended: a full queue of three drops its oldest entry
on the fourth offline send, and the bound holds from the empty state. -/
theorem send_queue_spec_witness :
    (sendOp { maxQueueSize := 3 } WSState.init (Json.str "x")).queue.length ≤ max 3 1
    ∧ (sendOp { maxQueueSize := 3 } { WSState.init with queue := ["a", "b", "c"] } (Json.str "d")).queue = ["b", "c", stringify (Json.str "d")] := by
  refine ⟨(send_queue_spec { maxQueueSize := 3 } WSState.init (Json.str "x")).1 (by decide), ?_⟩
  have h := (send_queue_spec { maxQueueSize := 3 } { WSState.init with queue := ["a", "b", "c"] } (Json.str "d")).2.2.2.1 (by decide) (by decide)
  simpa using h

/-- A disposed client's `connect` is a no-op. -/
theorem connect_of_disposed (s : WSState) (hd : s.disposed = true) : connect s = s := by
  simp [connect, hd]

/-- With a null socket reference, `ensureConnection` on a disposed client
is a no-op. -/
theorem ensureConnection_of_none (s : WSState) (hw : s.wsIdx = none)
    (hd : s.disposed = true) : ensureConnection s = s := by
  unfold ensureConnection
  have hcur : currentReady s = none := by simp [currentReady, hw]
  rw [hcur]
  exact connect_of_disposed s hd

/-- With a null socket reference, `flushQueue` is a no-op. -/
theorem flushQueue_of_none (s : WSState) (hw : s.wsIdx = none) : flushQueue s = s := by
  unfold flushQueue
  rw [if_neg]
  simp [currentReady, hw]

/-- `dispose` marks the client disposed. -/
theorem disposeOp_disposed (s : WSState) : (disposeOp s).disposed = true := by
  simp only [disposeOp]
  split <;> split <;> rfl

/-- `dispose` nulls the socket reference. -/
theorem disposeOp_wsIdx (s : WSState) : (disposeOp s).wsIdx = none := by
  simp only [disposeOp]

/-- `dispose` clears the offline queue. -/
theorem disposeOp_queue (s : WSState) : (disposeOp s).queue = [] := by
  simp only [disposeOp]

/-- `dispose` transmits nothing. -/
theorem disposeOp_transmitted (s : WSState) : (disposeOp s).transmitted = s.transmitted := by
  simp only [disposeOp]
  split <;> split <;> rfl

/-- Once a client is disposed, every event keeps it disposed with a null
socket reference and transmits nothing. -/
theorem disposed_step_invariant (cfg : WSCfg) (e : WSEv) (s : WSState)
    (hd : s.disposed = true) (hw : s.wsIdx = none) :
    (stepEv cfg s e).disposed = true ∧ (stepEv cfg s e).wsIdx = none
    ∧ (stepEv cfg s e).transmitted = s.transmitted := by
  cases e with
  | subscribe =>
      have h2 : stepEv cfg s WSEv.subscribe = { s with listeners := s.listeners + 1 } :=
        ensureConnection_of_none { s with listeners := s.listeners + 1 } hw hd
      rw [h2]
      exact ⟨hd, hw, rfl⟩
  | unsubscribe =>
      simp only [stepEv, unsubscribeOp]
      split
      · exact ⟨disposeOp_disposed _, disposeOp_wsIdx _, disposeOp_transmitted _⟩
      · exact ⟨hd, hw, rfl⟩
  | send msg =>
      have hno : ¬ currentReady s = some ReadyState.opened := by
        simp [currentReady, hw]
      have h2 : stepEv cfg s (WSEv.send msg) = { s with queue := evictPush cfg.maxQueueSize s.queue (stringify msg) } := by
        simp only [stepEv, sendOp, if_neg hno]
      rw [h2]
      exact ⟨hd, hw, rfl⟩
  | dispose =>
      exact ⟨disposeOp_disposed _, disposeOp_wsIdx _, disposeOp_transmitted _⟩
  | sockOpen i =>
      simp only [stepEv, sockOpenEv]
      split
      · rw [flushQueue_of_none { s with sockets := s.sockets.set i ReadyState.opened, attempts := 0 } hw]
        exact ⟨hd, hw, rfl⟩
      · exact ⟨hd, hw, rfl⟩
  | sockClose i =>
      simp only [stepEv, sockCloseEv]
      split
      · rw [if_neg]
        · exact ⟨hd, hw, rfl⟩
        · simp [hd]
      · exact ⟨hd, hw, rfl⟩
  | timerFire =>
      simp only [stepEv, timerFireEv]
      split
      · rw [connect_of_disposed { s with timers := s.timers - 1, timerRef := false } hd]
        exact ⟨hd, hw, rfl⟩
      · exact ⟨hd, hw, rfl⟩
  | message i parsed =>
      simp only [stepEv, messageEv]
      split
      · cases parsed with
        | none => exact ⟨hd, hw, rfl⟩
        | some v =>
            dsimp only
            split
            · exact ⟨hd, hw, rfl⟩
            · exact ⟨hd, hw, rfl⟩
      · exact ⟨hd, hw, rfl⟩

/-- A disposed client stays disposed, keeps a null socket reference and
transmits nothing across any event sequence. -/
theorem disposed_run_invariant (cfg : WSCfg) :
    ∀ (evs : List WSEv) (s : WSState), s.disposed = true → s.wsIdx = none →
    (runEvents cfg evs s).disposed = true ∧ (runEvents cfg evs s).wsIdx = none
    ∧ (runEvents cfg evs s).transmitted = s.transmitted := by
  intro evs
  induction evs with
  | nil => intro s hd hw; exact ⟨hd, hw, rfl⟩
  | cons e es ih =>
      intro s hd hw
      obtain ⟨hd2, hw2, ht2⟩ := disposed_step_invariant cfg e s hd hw
      obtain ⟨hd3, hw3, ht3⟩ := ih (stepEv cfg s e) hd2 hw2
      exact ⟨hd3, hw3, ht3.trans ht2⟩

/-- C10: `dispose()` empties the queue, marks the client disposed and
nulls the socket; a subsequent `send` is total and appends its serialized
message to the offline queue; and because a disposed client never opens a
socket again, no event sequence after the dispose ever transmits anything,
so post-dispose queued messages are never sent. -/
theorem dispose_send_spec : ∀ (cfg : WSCfg) (s : WSState) (msg : Json) (evs : List WSEv),
    (disposeOp s).disposed = true
    ∧ (disposeOp s).wsIdx = none
    ∧ (disposeOp s).queue = []
    ∧ (stepEv cfg (disposeOp s) (WSEv.send msg)).queue = [stringify msg]
    ∧ (stepEv cfg (disposeOp s) (WSEv.send msg)).transmitted = (disposeOp s).transmitted
    ∧ (runEvents cfg evs (disposeOp s)).transmitted = (disposeOp s).transmitted := by
  intro cfg s msg evs
  have hd : (disposeOp s).disposed = true := disposeOp_disposed s
  have hw : (disposeOp s).wsIdx = none := disposeOp_wsIdx s
  have hq : (disposeOp s).queue = [] := disposeOp_queue s
  have hno : ¬ currentReady (disposeOp s) = some ReadyState.opened := by
    simp [currentReady, hw]
  refine ⟨hd, hw, hq, ?_, ?_, (disposed_run_invariant cfg evs (disposeOp s) hd hw).2.2⟩
  · simp only [stepEv, sendOp, if_neg hno]
    simp only [evictPush, hq]
    split <;> rfl
  · simp only [stepEv, sendOp, if_neg hno]

mutual

/-- The sanitizer's output contains no dangerous key at any level. -/
theorem sanitizeJson_clean : (v : Json) → hasDangerousKey (sanitizeJson v) = false
  | .null => rfl
  | .bool b => rfl
  | .num n => rfl
  | .str s => rfl
  | .arr elems => by
      simp only [sanitizeJson, hasDangerousKey]
      exact sanitizeArr_clean elems
  | .obj fields => by
      simp only [sanitizeJson, hasDangerousKey]
      exact sanitizeFields_clean fields

/-- Array sanitization leaves no dangerous key in any element. -/
theorem sanitizeArr_clean : (vs : List Json) → hasDangerousKeyArr (sanitizeArr vs) = false
  | [] => rfl
  | v :: vs => by
      simp only [sanitizeArr, hasDangerousKeyArr, Bool.or_eq_false_iff]
      exact ⟨sanitizeJson_clean v, sanitizeArr_clean vs⟩

/-- Field sanitization leaves no dangerous key at the top or below. -/
theorem sanitizeFields_clean :
    (kvs : List (String × Json)) → hasDangerousKeyFields (sanitizeFields kvs) = false
  | [] => rfl
  | (k, v) :: kvs => by
      by_cases hk : dangerousKeys.contains k
      · simp only [sanitizeFields, if_pos hk]
        exact sanitizeFields_clean kvs
      · simp only [sanitizeFields, if_neg hk, hasDangerousKeyFields]
        rw [sanitizeJson_clean v, sanitizeFields_clean kvs]
        simpa using hk

end

mutual

/-- The sanitizer preserves a value with no dangerous key unchanged. -/
theorem sanitizeJson_id : (v : Json) → hasDangerousKey v = false → sanitizeJson v = v
  | .null, _ => rfl
  | .bool b, _ => rfl
  | .num n, _ => rfl
  | .str s, _ => rfl
  | .arr elems, h => by
      simp only [sanitizeJson]
      rw [sanitizeArr_id elems (by simpa [hasDangerousKey] using h)]
  | .obj fields, h => by
      simp only [sanitizeJson]
      rw [sanitizeFields_id fields (by simpa [hasDangerousKey] using h)]

/-- Array sanitization preserves clean arrays. -/
theorem sanitizeArr_id :
    (vs : List Json) → hasDangerousKeyArr vs = false → sanitizeArr vs = vs
  | [], _ => rfl
  | v :: vs, h => by
      have hv : hasDangerousKey v = false := by
        cases hx : hasDangerousKey v with
        | false => rfl
        | true => simp [hasDangerousKeyArr, hx] at h
      have hrest : hasDangerousKeyArr vs = false := by
        cases hx : hasDangerousKeyArr vs with
        | false => rfl
        | true => simp [hasDangerousKeyArr, hx] at h
      simp only [sanitizeArr]
      rw [sanitizeJson_id v hv, sanitizeArr_id vs hrest]

/-- Field sanitization preserves clean field lists. -/
theorem sanitizeFields_id :
    (kvs : List (String × Json)) → hasDangerousKeyFields kvs = false → sanitizeFields kvs = kvs
  | [], _ => rfl
  | (k, v) :: kvs, h => by
      have hk : dangerousKeys.contains k = false := by
        by_cases hm : k ∈ dangerousKeys
        · simp [hasDangerousKeyFields, hm] at h
        · simpa using hm
      have hv : hasDangerousKey v = false := by
        cases hx : hasDangerousKey v with
        | false => rfl
        | true => simp [hasDangerousKeyFields, hx] at h
      have hrest : hasDangerousKeyFields kvs = false := by
        cases hx : hasDangerousKeyFields kvs with
        | false => rfl
        | true => simp [hasDangerousKeyFields, hx] at h
      have hnot : ¬ dangerousKeys.contains k = true := by simpa using hk
      simp only [sanitizeFields, if_neg hnot]
      rw [sanitizeJson_id v hv, sanitizeFields_id kvs hrest]

end

/-- Field sanitization drops exactly the dangerous keys and sanitizes the
remaining values, preserving order. -/
theorem sanitizeFields_eq_filter : ∀ kvs : List (String × Json),
    sanitizeFields kvs
      = (kvs.filter fun kv => !(dangerousKeys.contains kv.1)).map
          fun kv => (kv.1, sanitizeJson kv.2) := by
  intro kvs
  induction kvs with
  | nil => rfl
  | cons kv kvs ih =>
      obtain ⟨k, v⟩ := kv
      by_cases hk : k ∈ dangerousKeys
      · simp [sanitizeFields, hk, List.filter_cons, ih]
      · simp [sanitizeFields, hk, List.filter_cons, ih]

/-- Array sanitization maps the sanitizer over the elements. -/
theorem sanitizeArr_eq_map : ∀ vs : List Json, sanitizeArr vs = vs.map sanitizeJson := by
  intro vs
  induction vs with
  | nil => rfl
  | cons v vs ih => simp [sanitizeArr, ih]

/-- C8: `sanitizeJson` returns a value with no key literally equal to
`__proto__`, `constructor` or `prototype` at any nesting level; a value
containing none of those keys is returned unchanged (all other keys and
values are preserved); objects keep exactly their non-dangerous fields in
order with sanitized values, and arrays are sanitized element-wise.  The
embedding is a pure function, so the input is never mutated and no shared
object can gain a property. -/
theorem sanitizeJson_spec : ∀ v : Json,
    hasDangerousKey (sanitizeJson v) = false
    ∧ (hasDangerousKey v = false → sanitizeJson v = v)
    ∧ (∀ fields : List (String × Json), sanitizeJson (Json.obj fields)
        = Json.obj ((fields.filter fun kv => !(dangerousKeys.contains kv.1)).map
            fun kv => (kv.1, sanitizeJson kv.2)))
    ∧ (∀ elems : List Json, sanitizeJson (Json.arr elems)
        = Json.arr (elems.map sanitizeJson)) := by
  intro v
  refine ⟨sanitizeJson_clean v, sanitizeJson_id v, ?_, ?_⟩
  · intro fields
    simp only [sanitizeJson, sanitizeFields_eq_filter]
  · intro elems
    simp only [sanitizeJson, sanitizeArr_eq_map]

/-- Witness for C8: a clean object passes through unchanged, and an object
carrying a nested `__proto__` key sanitizes to one with no dangerous key
anywhere. -/
theorem sanitizeJson_spec_witness :
    hasDangerousKey (Json.obj [("a", Json.num 1)]) = false
    ∧ sanitizeJson (Json.obj [("a", Json.num 1)]) = Json.obj [("a", Json.num 1)]
    ∧ hasDangerousKey (sanitizeJson (Json.obj
        [("type", Json.str "t"),
         ("payload", Json.obj [("__proto__", Json.obj [("isAdmin", Json.bool true)])])])) = false :=
  ⟨by decide,
   (sanitizeJson_spec (Json.obj [("a", Json.num 1)])).2.1 (by decide),
   (sanitizeJson_spec (Json.obj
        [("type", Json.str "t"),
         ("payload", Json.obj [("__proto__", Json.obj [("isAdmin", Json.bool true)])])])).1⟩

/-- Escaping a run of `x` characters keeps its length. -/
theorem escapeList_replicate_x : ∀ n : Nat, (escapeList (List.replicate n 'x')).length = n := by
  intro n
  induction n with
  | zero => rfl
  | succ n ih =>
      rw [List.replicate_succ]
      simp only [escapeList, String.length_append, ih]
      have hx : escapeChar 'x' = "x" := by decide
      rw [hx]
      have h1 : "x".length = 1 := rfl
      omega

/-- The serialized length of a string payload of `n` `x` characters is
`n + 2` (the two quotes). -/
theorem stringify_replicate_x_length (n : Nat) :
    (stringify (Json.str (String.mk (List.replicate n 'x')))).length = n + 2 := by
  simp only [stringify, quoteString, escapeString]
  simp only [String.length_append, escapeList_replicate_x]
  have h1 : "\"".length = 1 := rfl
  omega

/-- A `filterMap` that keeps exactly the open entries, pairing each index
with a fixed payload, is the filtered list mapped to that payload. -/
theorem filterMap_open_eq (data : String) : ∀ l : List (Nat × ReadyState),
    (l.filterMap fun c => if c.2 = ReadyState.opened then some (c.1, data) else none)
      = (l.filter fun c => c.2 = ReadyState.opened).map fun c => (c.1, data) := by
  intro l
  induction l with
  | nil => rfl
  | cons c l ih =>
      by_cases hc : c.2 = ReadyState.opened
      · simp [List.filterMap_cons, List.filter_cons, hc, ih]
      · simp [List.filterMap_cons, List.filter_cons, hc, ih]

/-- C4: `broadcast` serializes the envelope once; when the serialized
length exceeds the fixed 1 MiB ceiling it warns and sends to no
connection; otherwise every transmission carries the identical serialized
string, each open connection receives it exactly once (the send indices
are distinct, cover exactly the open connections and pair with the one
serialized payload), and non-open connections are skipped; with zero
tracked connections nothing is sent. -/
theorem broadcast_spec : ∀ (clients : List ReadyState) (msg : Json),
    ((stringify msg).length > MAX_BROADCAST_SIZE →
        (broadcast clients msg).warned = true ∧ (broadcast clients msg).sends = [])
    ∧ ((stringify msg).length ≤ MAX_BROADCAST_SIZE →
        (broadcast clients msg).warned = false
        ∧ (∀ p ∈ (broadcast clients msg).sends,
             p.2 = stringify msg ∧ clients[p.1]? = some ReadyState.opened)
        ∧ ((broadcast clients msg).sends.map Prod.fst).Nodup
        ∧ (∀ i : Nat, clients[i]? = some ReadyState.opened →
             (i, stringify msg) ∈ (broadcast clients msg).sends))
    ∧ (clients = [] → (broadcast clients msg).sends = []) := by
  intro clients msg
  refine ⟨?_, ?_, ?_⟩
  · intro hbig
    simp [broadcast, hbig]
  · intro hsmall
    have hno : ¬ (stringify msg).length > MAX_BROADCAST_SIZE := by omega
    have hb : (broadcast clients msg).sends
        = (clients.enum.filter fun c => c.2 = ReadyState.opened).map
            fun c => (c.1, stringify msg) := by
      simp [broadcast, hno, filterMap_open_eq]
    have hw : (broadcast clients msg).warned = false := by
      simp [broadcast, hno]
    refine ⟨hw, ?_, ?_, ?_⟩
    · intro p hp
      rw [hb] at hp
      simp only [List.mem_map, List.mem_filter] at hp
      obtain ⟨c, ⟨hcmem, hcopen⟩, hpc⟩ := hp
      obtain ⟨i, st⟩ := c
      have hst : st = ReadyState.opened := by simpa using hcopen
      subst hst
      have hget : clients[i]? = some ReadyState.opened :=
        List.mem_enum_iff_getElem?.1 hcmem
      rw [← hpc]
      exact ⟨rfl, hget⟩
    · rw [hb]
      have hmap : ((clients.enum.filter fun c => c.2 = ReadyState.opened).map
          (fun c => (c.1, stringify msg))).map Prod.fst
          = (clients.enum.filter fun c => c.2 = ReadyState.opened).map Prod.fst := by
        simp [List.map_map, Function.comp]
      rw [hmap]
      have hsub : ((clients.enum.filter fun c => c.2 = ReadyState.opened).map Prod.fst).Sublist
          (clients.enum.map Prod.fst) :=
        (List.filter_sublist clients.enum).map Prod.fst
      rw [List.enum_map_fst] at hsub
      exact hsub.nodup (List.nodup_range clients.length)
    · intro i hopen
      have hmem : (i, ReadyState.opened) ∈ clients.enum :=
        List.mem_enum_iff_getElem?.2 hopen
      rw [hb]
      simp only [List.mem_map, List.mem_filter]
      exact ⟨(i, ReadyState.opened), ⟨hmem, by simp⟩, rfl⟩
  · intro hnil
    subst hnil
    simp only [broadcast]
    split <;> rfl

/-- Witness for C4: a small payload reaches the one open connection and
not the connecting one; a payload of more than 1 MiB reaches nobody; an
empty connection set receives nothing. -/
theorem broadcast_spec_witness :
    (broadcast [ReadyState.opened, ReadyState.connecting] (Json.str "hi")).warned = false
    ∧ (0, stringify (Json.str "hi"))
        ∈ (broadcast [ReadyState.opened, ReadyState.connecting] (Json.str "hi")).sends
    ∧ (broadcast [ReadyState.opened]
        (Json.str (String.mk (List.replicate (MAX_BROADCAST_SIZE + 1) 'x')))).sends = []
    ∧ (broadcast [] (Json.str "hi")).sends = [] := by
  have hbig : (stringify (Json.str (String.mk
      (List.replicate (MAX_BROADCAST_SIZE + 1) 'x')))).length > MAX_BROADCAST_SIZE := by
    rw [stringify_replicate_x_length]
    omega
  refine ⟨((broadcast_spec [ReadyState.opened, ReadyState.connecting] (Json.str "hi")).2.1
      (by decide)).1,
    ((broadcast_spec [ReadyState.opened, ReadyState.connecting] (Json.str "hi")).2.1
      (by decide)).2.2.2 0 (by decide),
    ((broadcast_spec [ReadyState.opened]
      (Json.str (String.mk (List.replicate (MAX_BROADCAST_SIZE + 1) 'x')))).1 hbig).2,
    (broadcast_spec [] (Json.str "hi")).2.2 rfl⟩
